import Mathlib

/-!
Verification of the toolpath planning / G-code synthesis pipeline of
`GladiusLib_ToGcode.py` (repository 3MFConsortium/gladius) against its
natural-language specification.

The Python source is shallowly embedded: floating-point arithmetic is
idealized as exact rational arithmetic (`ℚ`), the IEEE-754 double `np.pi`
is embedded as its exact rational value, `math.sqrt`-based Euclidean
distances are abstracted as a distance-function parameter (constrained by
non-negativity where a proof needs it), external collaborators (the
ortools routing solver, the pyclipr polygon engine) are oracle parameters,
and Python exceptions (IndexError) are modelled with `Option`.
-/

namespace GladiusToGcode

/-- A 2D point with rational coordinates (idealizing Python floats). -/
abbrev Point : Type := ℚ × ℚ

/-- The exact rational value of the IEEE-754 double constant `np.pi`
used throughout the source (`884279719003555 / 2^48`). -/
def np_pi : ℚ := 884279719003555 / 281474976710656

/-- Embedding of the `SlicingParameters` configuration class
(source lines 20-66); only the fields the toolpath pipeline reads. -/
structure SlicingParameters where
  first_layer_height : ℚ
  layer_height : ℚ
  num_perimeters : ℕ
  volume_rate_mm3_per_s : ℚ
  extrusion_width : ℚ
  nozzle_diameter : ℚ
  travel_speed : ℚ
  perimeter_overlap : ℚ
  brim_width : ℚ
  extrusion_multiplier : ℚ
  infill_density : ℚ
  infill_angle : ℚ
  infill_overlap : ℚ
  infill_layer_freq : ℕ
deriving Repr, DecidableEq

/-- One emitted motion-program command.  Comment lines keep only their
tag; `layerChangeCmd` stands for the whole layer-change block
(`;LAYER_CHANGE` comments, `G1 Z`, `G92 E0`) of `GcodeWriter.layerChange`
(source lines 136-147). -/
inductive Cmd where
  | travelMove (x y f : ℚ)
  | comment (tag : String)
  | feed (f : ℚ)
  | extrudeMove (x y e : ℚ)
  | layerChangeCmd (z h : ℚ)
deriving Repr, DecidableEq

/-- A command that physically moves the head (G1 with X/Y words). -/
def Cmd.isMotion : Cmd → Bool
  | .travelMove _ _ _ => true
  | .extrudeMove _ _ _ => true
  | _ => false

/-- A combined travel+extrude command (G1 with X/Y and E words). -/
def Cmd.isExtrude : Cmd → Bool
  | .extrudeMove _ _ _ => true
  | _ => false

/-- The layer-change block marker. -/
def Cmd.isLayerChange : Cmd → Bool
  | .layerChangeCmd _ _ => true
  | _ => false

/-- The X/Y coordinates of a motion command. -/
def Cmd.xy : Cmd → Option Point
  | .travelMove x y _ => some (x, y)
  | .extrudeMove x y _ => some (x, y)
  | _ => none

/-- The cumulative E word written by an extruding command. -/
def Cmd.eVal : Cmd → Option ℚ
  | .extrudeMove _ _ e => some e
  | _ => none

/-- The F word of a feed-rate-setting command (`G1 F...`). -/
def Cmd.feedVal : Cmd → Option ℚ
  | .feed f => some f
  | _ => none

/-- Track cross-sectional area (source lines 150-152 and 724-726):
`(extrusion_width - layer_height) * layer_height
  + layer_height * layer_height * 0.25 * np.pi`. -/
def track_area_mm2 (sp : SlicingParameters) (layer_height : ℚ) : ℚ :=
  (sp.extrusion_width - layer_height) * layer_height
    + layer_height * layer_height * (1/4) * np_pi

/-- Nozzle bore area (source lines 157 and 731):
`np.pi * (nozzle_diameter * 0.5) ** 2`. -/
def nozzle_area (sp : SlicingParameters) : ℚ :=
  np_pi * (sp.nozzle_diameter * (1/2)) ^ 2

/-- Perimeter printing feed rate in mm/min (source lines 154-155):
`extrusion_multiplier * volume_rate / track_area`, times 60. -/
def feedrate_mm_per_min (sp : SlicingParameters) (layer_height : ℚ) : ℚ :=
  sp.extrusion_multiplier * sp.volume_rate_mm3_per_s
    / track_area_mm2 sp layer_height * 60

/-- Perimeter extrusion length per extruded mm (source line 158):
`track_area / nozzle_area * 0.1` — note: no `extrusion_multiplier`. -/
def extrusion_per_extruded_mm (sp : SlicingParameters) (layer_height : ℚ) : ℚ :=
  track_area_mm2 sp layer_height / nozzle_area sp * (1/10)

/-- Infill printing feed rate in mm/min (source lines 728-729):
`volume_rate / track_area`, times 60 — note: no `extrusion_multiplier`. -/
def infill_feedrate_mm_per_min (sp : SlicingParameters) (layer_height : ℚ) : ℚ :=
  sp.volume_rate_mm3_per_s / track_area_mm2 sp layer_height * 60

/-- Infill extrusion length per extruded mm (source line 732):
`track_area / nozzle_area * 0.1 * extrusion_multiplier`. -/
def infill_extrusion_per_extruded_mm (sp : SlicingParameters) (layer_height : ℚ) : ℚ :=
  track_area_mm2 sp layer_height / nozzle_area sp * (1/10) * sp.extrusion_multiplier

/-- The inner `for vertex in polygon` loop of `GcodeWriter.addPolygons`
(source lines 186-200): starting from `prev` with cumulative extruder
position `e`, emit one combined move+extrude command per vertex,
accumulating `e += dist * epm`, and return the final extruder position
together with the emitted commands.  `dist` abstracts the
`math.sqrt(dx**2 + dy**2)` Euclidean distance of lines 189-192. -/
def extrudeLoop (dist : Point → Point → ℚ) (epm : ℚ) :
    Point → ℚ → List Point → ℚ × List Cmd
  | _, e, [] => (e, [])
  | prev, e, v :: rest =>
    let e' := e + dist prev v * epm
    let (eFinal, cs) := extrudeLoop dist epm v e' rest
    (eFinal, Cmd.extrudeMove v.1 v.2 e' :: cs)

/-- The body of the `for polygon in polygons` loop of
`GcodeWriter.addPolygons` (source lines 160-200): skip an empty polygon;
otherwise emit the initial travel move to the first vertex at travel feed
rate, the metadata comments, the feed-rate command, then the extrusion
loop over the polygon closed by re-appending its first vertex
(`np.vstack([polygon, polygon[0]])`, line 184). -/
def polygonCmds (sp : SlicingParameters) (dist : Point → Point → ℚ)
    (layer_height : ℚ) (e : ℚ) (polygon : List Point) : ℚ × List Cmd :=
  match polygon with
  | [] => (e, [])
  | v0 :: _ =>
    let header : List Cmd :=
      [ Cmd.travelMove v0.1 v0.2 (sp.travel_speed * 60)
      , Cmd.comment "TYPE:Perimeter"
      , Cmd.comment "WIDTH"
      , Cmd.comment "EXTRUSION"
      , Cmd.comment "FEEDRATE"
      , Cmd.comment "nozzle_area"
      , Cmd.comment "track_area_mm2"
      , Cmd.feed (feedrate_mm_per_min sp layer_height) ]
    let closed := polygon ++ [v0]
    let (e', cs) :=
      extrudeLoop dist (extrusion_per_extruded_mm sp layer_height) v0 e closed
    (e', header ++ cs)

/-- `GcodeWriter.addPolygons` (source lines 149-200): fold `polygonCmds`
over the polygon list, threading the cumulative extruder position. -/
def addPolygons (sp : SlicingParameters) (dist : Point → Point → ℚ)
    (layer_height : ℚ) (e : ℚ) : List (List Point) → ℚ × List Cmd
  | [] => (e, [])
  | p :: ps =>
    let (e', cs) := polygonCmds sp dist layer_height e p
    let (e'', cs') := addPolygons sp dist layer_height e' ps
    (e'', cs ++ cs')

/-- `GcodeWriter.layerChange` (source lines 136-147): emit the
layer-change block and reset the cumulative extruder position
(`self.extruder_position = 0.0`, `G92 E0`). -/
def layerChange (z_height layer_height : ℚ) (_e : ℚ) : ℚ × List Cmd :=
  ((0 : ℚ), [Cmd.layerChangeCmd z_height layer_height])

/-- Emission of one infill line segment (source lines 738-761): travel
move to the segment start at travel feed rate, a feed-rate command, then
one combined move+extrude command to the segment end, accumulating
`extruder_position += dist * infill extrusion-per-mm`. -/
def infillSegmentCmds (sp : SlicingParameters) (dist : Point → Point → ℚ)
    (layer_height : ℚ) (e : ℚ) (seg : Point × Point) : ℚ × List Cmd :=
  let e' := e + dist seg.1 seg.2 * infill_extrusion_per_extruded_mm sp layer_height
  (e', [ Cmd.travelMove seg.1.1 seg.1.2 (sp.travel_speed * 60)
       , Cmd.feed (infill_feedrate_mm_per_min sp layer_height)
       , Cmd.extrudeMove seg.2.1 seg.2.2 e' ])

/-- The `for segment in infill_segments` loop (source lines 738-761). -/
def infillSegments (sp : SlicingParameters) (dist : Point → Point → ℚ)
    (layer_height : ℚ) (e : ℚ) : List (Point × Point) → ℚ × List Cmd
  | [] => (e, [])
  | s :: ss =>
    let (e', cs) := infillSegmentCmds sp dist layer_height e s
    let (e'', cs') := infillSegments sp dist layer_height e' ss
    (e'', cs ++ cs')

/-- A clipping oracle abstracting the external pyclipr engine together
with the trigonometric sweep-line family of `generate_straight_line_infill`
(source lines 372-463): given the valid polygons, the line spacing, the
infill angle and the bounding box, it returns the clipped infill
segments. -/
abbrev ClipOracle : Type :=
  List (List Point) → ℚ → ℚ → ℚ × ℚ × ℚ × ℚ → List (Point × Point)

/-- `generate_straight_line_infill` (source lines 345-463): drop
polygons with fewer than 3 vertices (line 362); if no valid polygon
remains, return no segments (lines 369-370) — before any call to the
clipping engine.  The union, sweep-line generation and per-line
intersection (floating trigonometry plus the external pyclipr engine)
are abstracted as `clip`. -/
def generate_straight_line_infill (clip : ClipOracle)
    (polygons : List (List Point)) (line_spacing angle : ℚ)
    (bounds : ℚ × ℚ × ℚ × ℚ) : List (Point × Point) :=
  let clipper_polygons := polygons.filter (fun p => 3 ≤ p.length)
  if clipper_polygons.isEmpty then []
  else clip clipper_polygons line_spacing angle bounds

/-- The two alternating infill angles (source line 626):
`[infill_angle, infill_angle + 90]`. -/
def infill_angles (sp : SlicingParameters) : List ℚ :=
  [sp.infill_angle, sp.infill_angle + 90]

/-- The per-layer infill emission step of `main` (source lines 690-761):
gated on `infill_density > 0 and i % infill_layer_freq == 0`; if the
inner contour is non-empty, generate the straight-line infill at spacing
`extrusion_width / infill_density` and the layer-parity angle, and emit
the infill commands only when at least one segment was produced
(`if infill_segments:`, line 718). -/
def infillStep (sp : SlicingParameters) (dist : Point → Point → ℚ)
    (clip : ClipOracle) (i : ℕ) (inner_polygons : List (List Point))
    (bounds : ℚ × ℚ × ℚ × ℚ) (layer_height : ℚ) (e : ℚ) : ℚ × List Cmd :=
  if 0 < sp.infill_density ∧ i % sp.infill_layer_freq = 0 then
    if 0 < inner_polygons.length then
      let line_spacing := sp.extrusion_width / sp.infill_density
      let infill_angle := (infill_angles sp).getD (i % (infill_angles sp).length) 0
      let infill_lines :=
        generate_straight_line_infill clip inner_polygons line_spacing
          infill_angle bounds
      if infill_lines.isEmpty then (e, [])
      else
        let (e', cs) := infillSegments sp dist layer_height e infill_lines
        (e', Cmd.comment "TYPE:Infill" :: Cmd.comment "WIDTH" :: cs)
    else (e, [])
  else (e, [])

/-- `process_polygon` (source lines 258-267): walk the vertex cursor
collecting every vertex, then close the loop by appending the first
vertex again.  The cursor is embedded as the list of its vertices;
`GetSize()` is the vertex count, so for a zero-size polygon the `while`
loop never runs and `vertices.append(vertices[0])` raises `IndexError`
on the empty list, modelled as `none`. -/
def process_polygon (polygon : List Point) : Option (List Point) :=
  match polygon with
  | [] => none
  | v0 :: _ => some (polygon ++ [v0])

/-- `process_contour` (source lines 270-279): walk the polygon cursor,
materializing each polygon with `process_polygon`; an uncaught
`IndexError` from `process_polygon` aborts the whole extraction
(`none`). -/
def process_contour : List (List Point) → Option (List (List Point))
  | [] => some []
  | p :: ps => do
    let vertices ← process_polygon p
    let rest ← process_contour ps
    pure (vertices :: rest)

/-- The squared Euclidean distances between the loops' start vertices
(source lines 283-297).  The source stores
`round(sqrt(squared) * 1e4)`; that strictly monotone sqrt/scale/round
quantization is folded into the solver oracle, which in the source is
the external ortools routing solver consuming the matrix. -/
def squared_distance_matrix (polygons : List (List Point)) : List (List ℚ) :=
  let vertices := polygons.map (fun p => p.headD (0, 0))
  vertices.map (fun a =>
    vertices.map (fun b => (a.1 - b.1) ^ 2 + (a.2 - b.2) ^ 2))

/-- A routing-solver oracle abstracting the external ortools single-
vehicle routing solver (source lines 299-334): given the distance
matrix it returns the visiting order, or `none` when it reports no
feasible solution. -/
abbrev SolveOracle : Type := List (List ℚ) → Option (List ℕ)

/-- Result of `reduce_travel_moves`: the (re)ordered polygons, whether
the routing solver was invoked, and the messages printed. -/
structure RoutingOutcome where
  polygons : List (List Point)
  solverInvoked : Bool
  messages : List String
deriving Repr, DecidableEq

/-- `reduce_travel_moves` (source lines 282-342).  Line 284
(`vertices = [polygon[0] for polygon in polygons]`) raises `IndexError`
on an empty polygon before anything else, modelled as `none`; with zero
polygons the function returns them before building the routing model
(line 288-289); otherwise the solver is invoked, and on `None` the
original order is returned with the `"No solution found!"` message
(lines 340-342).  Indexing `polygons[i]` with an out-of-range solver
index (line 337) would raise, modelled as `none`. -/
def reduce_travel_moves (solve : SolveOracle)
    (polygons : List (List Point)) : Option RoutingOutcome :=
  if polygons.any (fun p => p.isEmpty) then none
  else if polygons.length = 0 then some ⟨polygons, false, []⟩
  else
    match solve (squared_distance_matrix polygons) with
    | some permutation =>
        if permutation.all (fun i => i < polygons.length) then
          some ⟨permutation.map (fun i => polygons.getD i []), true, []⟩
        else none
    | none => some ⟨polygons, true, ["No solution found!"]⟩

/-- `int(math.ceil(brim_width / extrusion_width))`
(source lines 664-668). -/
def num_brim_lines (sp : SlicingParameters) : ℤ :=
  ⌈sp.brim_width / sp.extrusion_width⌉

/-- The integers of Python `range(a, b)`. -/
def intRange (a b : ℤ) : List ℤ :=
  (List.range (b - a).toNat).map (fun (k : ℕ) => a + (k : ℤ))

/-- The `offsetRange` of shell indices driving the shell/brim contour
passes of `main` (source lines 656-669): `range(0, num_perimeters)`
normally, extended to `range(-num_brim_lines, num_perimeters)` on the
first layer.  Each index issues exactly one `GenerateContour` pass
(line 672). -/
def offsetRange (sp : SlicingParameters) (i : ℕ) : List ℤ :=
  if i = 0 then intRange (-(num_brim_lines sp)) (sp.num_perimeters : ℤ)
  else intRange 0 (sp.num_perimeters : ℤ)

/-- One writer-level operation of the per-layer orchestration in `main`:
a layer change, a batch of perimeter polygons, or an infill pass. -/
inductive Op where
  | layer (z_height layer_height : ℚ)
  | polys (layer_height : ℚ) (ps : List (List Point))
  | infillOp (i : ℕ) (inner : List (List Point)) (bounds : ℚ × ℚ × ℚ × ℚ)
      (layer_height : ℚ)
deriving Repr

/-- The layer height an operation extrudes at (irrelevant for a layer
change, which extrudes nothing). -/
def Op.height : Op → ℚ
  | .layer _ h => h
  | .polys h _ => h
  | .infillOp _ _ _ h => h

/-- Execute one writer-level operation from extruder position `e`. -/
def runOp (sp : SlicingParameters) (dist : Point → Point → ℚ)
    (clip : ClipOracle) (e : ℚ) : Op → ℚ × List Cmd
  | .layer z h => layerChange z h e
  | .polys h ps => addPolygons sp dist h e ps
  | .infillOp i inner bounds h => infillStep sp dist clip i inner bounds h e

/-- Execute a sequence of writer-level operations, threading the
cumulative extruder position and concatenating the emitted commands. -/
def runOps (sp : SlicingParameters) (dist : Point → Point → ℚ)
    (clip : ClipOracle) (e : ℚ) : List Op → ℚ × List Cmd
  | [] => (e, [])
  | op :: ops =>
    let (e', cs) := runOp sp dist clip e op
    let (e'', cs') := runOps sp dist clip e' ops
    (e'', cs ++ cs')

/-- The extruder position immediately after a command, as a function of
the position before it: an extruding move writes (and leaves) its
cumulative E value (source line 195), the layer-change block resets it
to zero (source line 146, `G92 E0`), and every other command leaves it
unchanged. -/
def stepE (e : ℚ) : Cmd → ℚ
  | .extrudeMove _ _ ev => ev
  | .layerChangeCmd _ _ => 0
  | _ => e

/-- The extruder-position invariant over an emitted command stream,
threaded from initial position `e`: immediately after a layer-change
command the position is exactly 0, and after every other command it has
not decreased. -/
def extruderOk (e : ℚ) : List Cmd → Prop
  | [] => True
  | c :: cs =>
    (if c.isLayerChange then stepE e c = 0 else e ≤ stepE e c)
      ∧ extruderOk (stepE e c) cs

/-- The cumulative E values of the extruding commands of a stream, in
emission order. -/
def extrudeEs (cs : List Cmd) : List ℚ :=
  cs.filterMap Cmd.eVal

/-- The F values of the feed-rate-setting commands of a stream. -/
def feedVals (cs : List Cmd) : List ℚ :=
  cs.filterMap Cmd.feedVal

/-- Consecutive differences of a value list from initial value `e`. -/
def qdiffs (e : ℚ) (es : List ℚ) : List ℚ :=
  List.zipWith (fun a b => a - b) es (e :: es)

/-- Modelled from the spec's words (§4.5 / claim C2): extrusion length
per unit travel `(track_area / nozzle_bore_area) × 0.1 ×
extrusion_multiplier`, asserted there for every extruding move. -/
def spec_extrusion_per_mm (sp : SlicingParameters) (layer_height : ℚ) : ℚ :=
  track_area_mm2 sp layer_height / nozzle_area sp * (1/10)
    * sp.extrusion_multiplier

/-- Modelled from the spec's words (§4.5 / claim C3): printing feed rate
`extrusion_multiplier × volumetric_rate / track_area`, times 60,
asserted there for every extrusion pass. -/
def spec_feedrate_mm_per_min (sp : SlicingParameters) (layer_height : ℚ) : ℚ :=
  sp.extrusion_multiplier * sp.volume_rate_mm3_per_s
    / track_area_mm2 sp layer_height * 60

/-- A concrete distance function used to instantiate the abstract
Euclidean-distance parameter in witnesses and counterexamples.  On the
point pairs those statements traverse — equal points, and the pair
`(0,0)`/`(3,4)` — it coincides with the true Euclidean distance. -/
def distEx (p q : Point) : ℚ := if p = q then 0 else 5

/-- A concrete clipping oracle producing no segments. -/
def clipNone : ClipOracle := fun _ _ _ _ => []

/-- Concrete slicing parameters with physically sensible values, used by
witnesses. -/
def spTest : SlicingParameters :=
  { first_layer_height := 3/10
    layer_height := 1/5
    num_perimeters := 2
    volume_rate_mm3_per_s := 10
    extrusion_width := 3/5
    nozzle_diameter := 3/5
    travel_speed := 250
    perimeter_overlap := 3/20
    brim_width := 5
    extrusion_multiplier := 1
    infill_density := 1/5
    infill_angle := 45
    infill_overlap := 3/20
    infill_layer_freq := 1 }

theorem extrudeLoop_cons (dist : Point → Point → ℚ) (epm : ℚ) (prev v : Point)
    (e : ℚ) (rest : List Point) :
    extrudeLoop dist epm prev e (v :: rest)
      = ((extrudeLoop dist epm v (e + dist prev v * epm) rest).1,
          Cmd.extrudeMove v.1 v.2 (e + dist prev v * epm)
            :: (extrudeLoop dist epm v (e + dist prev v * epm) rest).2) := by
  simp [extrudeLoop]

theorem extrudeLoop_length (dist : Point → Point → ℚ) (epm : ℚ) :
    ∀ (vs : List Point) (prev : Point) (e : ℚ),
      ((extrudeLoop dist epm prev e vs).2).length = vs.length := by
  intro vs
  induction vs with
  | nil => intro prev e; simp [extrudeLoop]
  | cons v rest ih =>
    intro prev e
    rw [extrudeLoop_cons]
    simp [ih]

theorem extrudeLoop_all_extrude (dist : Point → Point → ℚ) (epm : ℚ) :
    ∀ (vs : List Point) (prev : Point) (e : ℚ),
      ∀ c ∈ (extrudeLoop dist epm prev e vs).2, c.isExtrude = true := by
  intro vs
  induction vs with
  | nil => intro prev e c hc; simp [extrudeLoop] at hc
  | cons v rest ih =>
    intro prev e c hc
    rw [extrudeLoop_cons] at hc
    rcases List.mem_cons.mp hc with h | h
    · subst h; rfl
    · exact ih v _ c h

theorem extrudeLoop_xys (dist : Point → Point → ℚ) (epm : ℚ) :
    ∀ (vs : List Point) (prev : Point) (e : ℚ),
      ((extrudeLoop dist epm prev e vs).2).map Cmd.xy = vs.map some := by
  intro vs
  induction vs with
  | nil => intro prev e; simp [extrudeLoop]
  | cons v rest ih =>
    intro prev e
    rw [extrudeLoop_cons]
    simp only [List.map_cons, ih]
    rfl

theorem extrudeLoop_qdiffs (dist : Point → Point → ℚ) (epm : ℚ) :
    ∀ (vs : List Point) (prev : Point) (e : ℚ),
      qdiffs e (extrudeEs (extrudeLoop dist epm prev e vs).2)
        = (List.zip (prev :: vs) vs).map (fun pq => dist pq.1 pq.2 * epm) := by
  intro vs
  induction vs with
  | nil => intro prev e; simp [extrudeLoop, extrudeEs, qdiffs]
  | cons v rest ih =>
    intro prev e
    rw [extrudeLoop_cons]
    simp only [extrudeEs, List.filterMap_cons, Cmd.eVal, List.zip_cons_cons,
      List.map_cons]
    have h := ih v (e + dist prev v * epm)
    simp only [extrudeEs] at h
    simp [qdiffs, List.zipWith] at h ⊢
    exact h

theorem polygonCmds_cons (sp : SlicingParameters) (dist : Point → Point → ℚ)
    (h e : ℚ) (v0 : Point) (rest : List Point) :
    (polygonCmds sp dist h e (v0 :: rest)).2
      = [ Cmd.travelMove v0.1 v0.2 (sp.travel_speed * 60)
        , Cmd.comment "TYPE:Perimeter"
        , Cmd.comment "WIDTH"
        , Cmd.comment "EXTRUSION"
        , Cmd.comment "FEEDRATE"
        , Cmd.comment "nozzle_area"
        , Cmd.comment "track_area_mm2"
        , Cmd.feed (feedrate_mm_per_min sp h) ]
        ++ (extrudeLoop dist (extrusion_per_extruded_mm sp h) v0 e
              ((v0 :: rest) ++ [v0])).2 := by
  simp [polygonCmds]

/-- C1: for every closed loop with at least 3 vertices passed to the
motion model, the emitted motion commands consist of exactly one initial
non-extruding travel move at travel feed rate, followed by exactly
vertex-count + 1 combined travel+extrude moves, the last of which
returns to vertex 0. -/
theorem c1_loop_motion_commands (sp : SlicingParameters)
    (dist : Point → Point → ℚ) (h e : ℚ) (v0 : Point) (rest : List Point)
    (_hlen : 3 ≤ (v0 :: rest).length) :
    ((polygonCmds sp dist h e (v0 :: rest)).2.filter Cmd.isMotion).head?
        = some (Cmd.travelMove v0.1 v0.2 (sp.travel_speed * 60))
    ∧ ((polygonCmds sp dist h e (v0 :: rest)).2.filter Cmd.isMotion).tail.length
        = (v0 :: rest).length + 1
    ∧ (∀ c ∈ ((polygonCmds sp dist h e (v0 :: rest)).2.filter Cmd.isMotion).tail,
        c.isExtrude = true)
    ∧ (((polygonCmds sp dist h e (v0 :: rest)).2.filter Cmd.isMotion).getLast?.bind
        Cmd.xy) = some v0 := by
  have hall := extrudeLoop_all_extrude dist (extrusion_per_extruded_mm sp h)
    ((v0 :: rest) ++ [v0]) v0 e
  have hfilter :
      ((extrudeLoop dist (extrusion_per_extruded_mm sp h) v0 e
          ((v0 :: rest) ++ [v0])).2).filter Cmd.isMotion
        = (extrudeLoop dist (extrusion_per_extruded_mm sp h) v0 e
            ((v0 :: rest) ++ [v0])).2 := by
    apply List.filter_eq_self.mpr
    intro c hc
    have := hall c hc
    cases c <;> simp_all [Cmd.isExtrude, Cmd.isMotion]
  have hmotion :
      (polygonCmds sp dist h e (v0 :: rest)).2.filter Cmd.isMotion
        = Cmd.travelMove v0.1 v0.2 (sp.travel_speed * 60)
            :: (extrudeLoop dist (extrusion_per_extruded_mm sp h) v0 e
                  ((v0 :: rest) ++ [v0])).2 := by
    rw [polygonCmds_cons, List.filter_append, hfilter]
    simp [Cmd.isMotion]
  refine ⟨?_, ?_, ?_, ?_⟩
  · rw [hmotion]; rfl
  · rw [hmotion]
    simp [extrudeLoop_length]
  · rw [hmotion]
    intro c hc
    exact hall c (by simpa using hc)
  · rw [hmotion]
    set EL := (extrudeLoop dist (extrusion_per_extruded_mm sp h) v0 e
        ((v0 :: rest) ++ [v0])).2 with hEL
    have hxys := extrudeLoop_xys dist (extrusion_per_extruded_mm sp h)
      ((v0 :: rest) ++ [v0]) v0 e
    have hne : EL ≠ [] := by
      intro hnil
      have hlen2 := extrudeLoop_length dist (extrusion_per_extruded_mm sp h)
        ((v0 :: rest) ++ [v0]) v0 e
      rw [← hEL, hnil] at hlen2
      simp at hlen2
    have hmap : (EL.map Cmd.xy).getLast?
        = (((v0 :: rest) ++ [v0]).map some).getLast? := by
      rw [hEL, hxys]
    rw [List.getLast?_map, List.getLast?_map, List.getLast?_concat] at hmap
    obtain ⟨c, hc⟩ : ∃ c, EL.getLast? = some c := by
      cases hcase : EL.getLast? with
      | none => exact absurd (List.getLast?_eq_none_iff.mp hcase) hne
      | some c => exact ⟨c, rfl⟩
    have hcons : (Cmd.travelMove v0.1 v0.2 (sp.travel_speed * 60)
        :: EL).getLast? = some c := by
      rw [show Cmd.travelMove v0.1 v0.2 (sp.travel_speed * 60) :: EL
            = [Cmd.travelMove v0.1 v0.2 (sp.travel_speed * 60)] ++ EL from rfl,
        List.getLast?_append, hc]
      rfl
    rw [hcons]
    rw [hc] at hmap
    simp only [Option.map_some'] at hmap
    simpa using hmap

/-- Witness for C1 at a concrete triangle. -/
theorem c1_loop_motion_commands_witness :
    ((polygonCmds spTest distEx (1/5) 0
        [((0:ℚ), (0:ℚ)), ((1:ℚ), (0:ℚ)), ((0:ℚ), (1:ℚ))]).2.filter
          Cmd.isMotion).head?
        = some (Cmd.travelMove 0 0 (spTest.travel_speed * 60))
    ∧ ((polygonCmds spTest distEx (1/5) 0
        [((0:ℚ), (0:ℚ)), ((1:ℚ), (0:ℚ)), ((0:ℚ), (1:ℚ))]).2.filter
          Cmd.isMotion).tail.length
        = ([((0:ℚ), (0:ℚ)), ((1:ℚ), (0:ℚ)), ((0:ℚ), (1:ℚ))] : List Point).length
            + 1
    ∧ (∀ c ∈ ((polygonCmds spTest distEx (1/5) 0
        [((0:ℚ), (0:ℚ)), ((1:ℚ), (0:ℚ)), ((0:ℚ), (1:ℚ))]).2.filter
          Cmd.isMotion).tail, c.isExtrude = true)
    ∧ (((polygonCmds spTest distEx (1/5) 0
        [((0:ℚ), (0:ℚ)), ((1:ℚ), (0:ℚ)), ((0:ℚ), (1:ℚ))]).2.filter
          Cmd.isMotion).getLast?.bind Cmd.xy) = some ((0:ℚ), (0:ℚ)) :=
  c1_loop_motion_commands spTest distEx (1/5) 0 ((0:ℚ), (0:ℚ))
    [((1:ℚ), (0:ℚ)), ((0:ℚ), (1:ℚ))] (by simp)

/-- Concrete slicing parameters with extrusion multiplier 2, exposing
where the source applies (and omits) the multiplier. -/
def spMult2 : SlicingParameters :=
  { spTest with
      extrusion_multiplier := 2
      extrusion_width := 1
      nozzle_diameter := 1
      layer_height := 1/2 }

/-- C2 counterexample: with extrusion multiplier 2 the perimeter
emission of the loop `[(0,0), (3,4)]` (whose true Euclidean edge lengths
are exactly 5, as the first conjunct certifies for `distEx`) writes a
final cumulative E value of `10 mm × track_area/nozzle_area × 0.1`,
not the spec's `10 mm × track_area/nozzle_area × 0.1 ×
extrusion_multiplier`: the source (line 158) omits the multiplier for
perimeter moves. -/
theorem c2_counterexample :
    distEx ((0:ℚ), (0:ℚ)) ((3:ℚ), (4:ℚ)) * distEx ((0:ℚ), (0:ℚ)) ((3:ℚ), (4:ℚ))
        = ((0:ℚ) - 3) ^ 2 + ((0:ℚ) - 4) ^ 2
    ∧ (extrudeEs (polygonCmds spMult2 distEx (1/2) 0
          [((0:ℚ), (0:ℚ)), ((3:ℚ), (4:ℚ))]).2).getLast?
        = some (10 * (track_area_mm2 spMult2 (1/2) / nozzle_area spMult2
            * (1/10)))
    ∧ (extrudeEs (polygonCmds spMult2 distEx (1/2) 0
          [((0:ℚ), (0:ℚ)), ((3:ℚ), (4:ℚ))]).2).getLast?
        ≠ some (10 * spec_extrusion_per_mm spMult2 (1/2)) := by
  have hne : (((0:ℚ), (0:ℚ)) : Point) ≠ ((3:ℚ), (4:ℚ)) := by decide
  have hne' : (((3:ℚ), (4:ℚ)) : Point) ≠ ((0:ℚ), (0:ℚ)) := by decide
  have hne0 : (0 : Point) ≠ ((3:ℚ), (4:ℚ)) := by decide
  have hne0' : (((3:ℚ), (4:ℚ)) : Point) ≠ (0 : Point) := by decide
  refine ⟨by simp [distEx, hne, hne0]; norm_num, ?_, ?_⟩ <;>
    norm_num [polygonCmds, extrudeLoop, extrudeEs, Cmd.eVal, distEx, hne, hne',
      hne0, hne0', extrusion_per_extruded_mm, spec_extrusion_per_mm,
      track_area_mm2, nozzle_area, spMult2, spTest, np_pi]

/-- C2 (amended): the extrusion length added per millimetre of travel is
`(track_area / nozzle_bore_area) × 0.1` for perimeter moves (the
extrusion multiplier is NOT applied there), and
`(track_area / nozzle_bore_area) × 0.1 × extrusion_multiplier` for
infill moves: every consecutive cumulative-E increment of the perimeter
emission is the corresponding segment length times the former constant,
and the infill-segment increment is its length times the latter. -/
theorem c2_amended_extrusion_per_mm (sp : SlicingParameters)
    (dist : Point → Point → ℚ) (h e : ℚ) (v0 : Point) (rest : List Point)
    (seg : Point × Point) :
    qdiffs e (extrudeEs (polygonCmds sp dist h e (v0 :: rest)).2)
      = (List.zip (v0 :: ((v0 :: rest) ++ [v0])) ((v0 :: rest) ++ [v0])).map
          (fun pq => dist pq.1 pq.2
            * (track_area_mm2 sp h / nozzle_area sp * (1/10)))
    ∧ qdiffs e (extrudeEs (infillSegmentCmds sp dist h e seg).2)
      = [dist seg.1 seg.2
          * (track_area_mm2 sp h / nozzle_area sp * (1/10)
              * sp.extrusion_multiplier)] := by
  constructor
  · rw [polygonCmds_cons]
    have hheads : extrudeEs
        ([ Cmd.travelMove v0.1 v0.2 (sp.travel_speed * 60)
         , Cmd.comment "TYPE:Perimeter"
         , Cmd.comment "WIDTH"
         , Cmd.comment "EXTRUSION"
         , Cmd.comment "FEEDRATE"
         , Cmd.comment "nozzle_area"
         , Cmd.comment "track_area_mm2"
         , Cmd.feed (feedrate_mm_per_min sp h) ]
          ++ (extrudeLoop dist (extrusion_per_extruded_mm sp h) v0 e
                ((v0 :: rest) ++ [v0])).2)
        = extrudeEs (extrudeLoop dist (extrusion_per_extruded_mm sp h) v0 e
            ((v0 :: rest) ++ [v0])).2 := by
      simp [extrudeEs, Cmd.eVal]
    rw [hheads, extrudeLoop_qdiffs]
    rfl
  · simp [infillSegmentCmds, extrudeEs, qdiffs, Cmd.eVal,
      infill_extrusion_per_extruded_mm]

/-- C3 counterexample: with extrusion multiplier 2 the feed-rate command
emitted for an infill segment carries `volume_rate / track_area × 60`,
not the spec's `extrusion_multiplier × volume_rate / track_area × 60`:
the source (line 728) omits the multiplier for infill feed rates. -/
theorem c3_counterexample :
    feedVals (infillSegmentCmds spMult2 distEx (1/2) 0
        (((0:ℚ), (0:ℚ)), ((3:ℚ), (4:ℚ)))).2
      ≠ [spec_feedrate_mm_per_min spMult2 (1/2)] := by
  simp only [infillSegmentCmds, feedVals, List.filterMap, Cmd.feedVal,
    infill_feedrate_mm_per_min, spec_feedrate_mm_per_min, track_area_mm2,
    spMult2, spTest, np_pi]
  norm_num

/-- C3 (amended): the track cross-sectional area used for volumetrics is
`(extrusion_width − h) × h + 0.25π × h²` for both perimeter and infill
passes, and the commanded printing feed rate is `extrusion_multiplier ×
volume_rate / track_area × 60` for perimeter passes but
`volume_rate / track_area × 60` (multiplier omitted) for infill
passes. -/
theorem c3_amended_feedrate (sp : SlicingParameters)
    (dist : Point → Point → ℚ) (h e : ℚ) (v0 : Point) (rest : List Point)
    (seg : Point × Point) :
    feedVals (polygonCmds sp dist h e (v0 :: rest)).2
      = [sp.extrusion_multiplier * sp.volume_rate_mm3_per_s
          / ((sp.extrusion_width - h) * h + h * h * (1/4) * np_pi) * 60]
    ∧ feedVals (infillSegmentCmds sp dist h e seg).2
      = [sp.volume_rate_mm3_per_s
          / ((sp.extrusion_width - h) * h + h * h * (1/4) * np_pi) * 60] := by
  constructor
  · rw [polygonCmds_cons]
    have hext := extrudeLoop_all_extrude dist (extrusion_per_extruded_mm sp h)
      ((v0 :: rest) ++ [v0]) v0 e
    have hnone : feedVals (extrudeLoop dist (extrusion_per_extruded_mm sp h)
        v0 e ((v0 :: rest) ++ [v0])).2 = [] := by
      apply List.filterMap_eq_nil_iff.mpr
      intro c hc
      have := hext c hc
      cases c <;> simp_all [Cmd.isExtrude, Cmd.feedVal]
    simp [feedVals, Cmd.feedVal, feedrate_mm_per_min, track_area_mm2]
    simpa [feedVals] using hnone
  · simp [infillSegmentCmds, feedVals, Cmd.feedVal,
      infill_feedrate_mm_per_min, track_area_mm2]

theorem intRange_length (a b : ℤ) : (intRange a b).length = (b - a).toNat := by
  rw [intRange, List.length_map, List.length_range]

/-- C4: for N configured shells, brim width B and extrusion width W, the
shell sequencer issues exactly N + ⌈B/W⌉ shell-plus-brim contour passes
on the first layer (one per index of `offsetRange`), and exactly N
passes on every other layer. -/
theorem c4_shell_pass_count (sp : SlicingParameters) (i : ℕ)
    (hW : 0 < sp.extrusion_width) (hB : 0 ≤ sp.brim_width) :
    (offsetRange sp 0).length
        = sp.num_perimeters + (⌈sp.brim_width / sp.extrusion_width⌉).toNat
    ∧ (i ≠ 0 → (offsetRange sp i).length = sp.num_perimeters) := by
  have hm : 0 ≤ ⌈sp.brim_width / sp.extrusion_width⌉ :=
    Int.ceil_nonneg (div_nonneg hB hW.le)
  constructor
  · have hzero : offsetRange sp 0
        = intRange (-(num_brim_lines sp)) (sp.num_perimeters : ℤ) := by
      simp [offsetRange]
    rw [hzero, intRange_length, num_brim_lines, sub_neg_eq_add,
      Int.toNat_add (Int.natCast_nonneg _) hm, Int.toNat_natCast]
  · intro hi
    simp [offsetRange, hi, intRange_length]

/-- Witness for C4: brim width 5, extrusion width 3/5 gives
⌈25/3⌉ = 9 extra passes on layer 0 and exactly 2 passes on layer 1. -/
theorem c4_shell_pass_count_witness :
    0 < spTest.extrusion_width ∧ 0 ≤ spTest.brim_width
    ∧ (offsetRange spTest 0).length
        = spTest.num_perimeters
            + (⌈spTest.brim_width / spTest.extrusion_width⌉).toNat
    ∧ ((1 : ℕ) ≠ 0 → (offsetRange spTest 1).length = spTest.num_perimeters) :=
  ⟨by norm_num [spTest], by norm_num [spTest],
    (c4_shell_pass_count spTest 1 (by norm_num [spTest])
      (by norm_num [spTest])).1,
    (c4_shell_pass_count spTest 1 (by norm_num [spTest])
      (by norm_num [spTest])).2⟩

theorem np_pi_pos : 0 < np_pi := by norm_num [np_pi]

theorem track_area_nonneg (sp : SlicingParameters) (h : ℚ) (h0 : 0 ≤ h)
    (hW : h ≤ sp.extrusion_width) : 0 ≤ track_area_mm2 sp h := by
  unfold track_area_mm2
  have h1 : 0 ≤ (sp.extrusion_width - h) * h :=
    mul_nonneg (by linarith) h0
  have h2 : 0 ≤ h * h * (1/4) * np_pi :=
    mul_nonneg (by positivity) np_pi_pos.le
  linarith

theorem nozzle_area_pos (sp : SlicingParameters)
    (hnoz : 0 < sp.nozzle_diameter) : 0 < nozzle_area sp := by
  unfold nozzle_area
  have := np_pi_pos
  positivity

theorem extrusion_per_mm_nonneg (sp : SlicingParameters) (h : ℚ)
    (h0 : 0 ≤ h) (hW : h ≤ sp.extrusion_width)
    (hnoz : 0 < sp.nozzle_diameter) :
    0 ≤ extrusion_per_extruded_mm sp h := by
  unfold extrusion_per_extruded_mm
  have h1 := track_area_nonneg sp h h0 hW
  have h2 := nozzle_area_pos sp hnoz
  positivity

theorem infill_extrusion_per_mm_nonneg (sp : SlicingParameters) (h : ℚ)
    (h0 : 0 ≤ h) (hW : h ≤ sp.extrusion_width)
    (hnoz : 0 < sp.nozzle_diameter) (hmult : 0 ≤ sp.extrusion_multiplier) :
    0 ≤ infill_extrusion_per_extruded_mm sp h := by
  unfold infill_extrusion_per_extruded_mm
  have h1 := track_area_nonneg sp h h0 hW
  have h2 := nozzle_area_pos sp hnoz
  positivity

theorem extruderOk_append (e : ℚ) (xs ys : List Cmd) :
    extruderOk e (xs ++ ys)
      ↔ extruderOk e xs ∧ extruderOk (List.foldl stepE e xs) ys := by
  induction xs generalizing e with
  | nil => simp [extruderOk]
  | cons c cs ih =>
    simp only [List.cons_append, extruderOk, List.foldl_cons, List.append_eq,
      ih, and_assoc]

theorem extrudeLoop_extruderOk (dist : Point → Point → ℚ) (epm : ℚ)
    (hepm : 0 ≤ epm) (hd : ∀ p q, 0 ≤ dist p q) :
    ∀ (vs : List Point) (prev : Point) (e : ℚ),
      extruderOk e (extrudeLoop dist epm prev e vs).2
      ∧ List.foldl stepE e (extrudeLoop dist epm prev e vs).2
          = (extrudeLoop dist epm prev e vs).1
      ∧ e ≤ (extrudeLoop dist epm prev e vs).1 := by
  intro vs
  induction vs with
  | nil => intro prev e; simp [extrudeLoop, extruderOk]
  | cons v rest ih =>
    intro prev e
    rw [extrudeLoop_cons]
    have hstep : e ≤ e + dist prev v * epm := by
      have := mul_nonneg (hd prev v) hepm
      linarith
    obtain ⟨ok, fold, le⟩ := ih v (e + dist prev v * epm)
    refine ⟨⟨?_, ?_⟩, ?_, ?_⟩
    · simpa [Cmd.isLayerChange, stepE] using hstep
    · simpa [stepE] using ok
    · simpa [stepE] using fold
    · exact le_trans hstep le

theorem neutralCmds_extruderOk (e : ℚ) (cs : List Cmd)
    (hneutral : ∀ c ∈ cs, c.isExtrude = false ∧ c.isLayerChange = false) :
    extruderOk e cs ∧ List.foldl stepE e cs = e := by
  induction cs with
  | nil => simp [extruderOk]
  | cons c rest ih =>
    obtain ⟨hext, hlc⟩ := hneutral c (List.mem_cons_self c rest)
    have hstep : stepE e c = e := by
      cases c <;> simp_all [Cmd.isExtrude, Cmd.isLayerChange, stepE]
    obtain ⟨ok, fold⟩ := ih (fun c hc => hneutral c (List.mem_cons_of_mem _ hc))
    refine ⟨⟨?_, ?_⟩, ?_⟩
    · simp [hlc, hstep]
    · rw [hstep]; exact ok
    · rw [List.foldl_cons, hstep]; exact fold

theorem polygonCmds_extruderOk (sp : SlicingParameters)
    (dist : Point → Point → ℚ) (h : ℚ)
    (hepm : 0 ≤ extrusion_per_extruded_mm sp h) (hd : ∀ p q, 0 ≤ dist p q)
    (p : List Point) (e : ℚ) :
    extruderOk e (polygonCmds sp dist h e p).2
    ∧ List.foldl stepE e (polygonCmds sp dist h e p).2
        = (polygonCmds sp dist h e p).1
    ∧ e ≤ (polygonCmds sp dist h e p).1 := by
  match p with
  | [] => simp [polygonCmds, extruderOk]
  | v0 :: rest =>
    have hcmds := polygonCmds_cons sp dist h e v0 rest
    have hfst : (polygonCmds sp dist h e (v0 :: rest)).1
        = (extrudeLoop dist (extrusion_per_extruded_mm sp h) v0 e
            ((v0 :: rest) ++ [v0])).1 := by
      simp [polygonCmds]
    obtain ⟨hok, hfold⟩ := neutralCmds_extruderOk e
      [ Cmd.travelMove v0.1 v0.2 (sp.travel_speed * 60)
      , Cmd.comment "TYPE:Perimeter"
      , Cmd.comment "WIDTH"
      , Cmd.comment "EXTRUSION"
      , Cmd.comment "FEEDRATE"
      , Cmd.comment "nozzle_area"
      , Cmd.comment "track_area_mm2"
      , Cmd.feed (feedrate_mm_per_min sp h) ]
      (by intro c hc; fin_cases hc <;> simp [Cmd.isExtrude, Cmd.isLayerChange])
    obtain ⟨ok, fold, le⟩ := extrudeLoop_extruderOk dist
      (extrusion_per_extruded_mm sp h) hepm hd ((v0 :: rest) ++ [v0]) v0 e
    refine ⟨?_, ?_, ?_⟩
    · rw [hcmds, extruderOk_append, hfold]
      exact ⟨hok, ok⟩
    · rw [hcmds, List.foldl_append, hfold, hfst]
      exact fold
    · rw [hfst]; exact le

theorem addPolygons_extruderOk (sp : SlicingParameters)
    (dist : Point → Point → ℚ) (h : ℚ)
    (hepm : 0 ≤ extrusion_per_extruded_mm sp h) (hd : ∀ p q, 0 ≤ dist p q) :
    ∀ (ps : List (List Point)) (e : ℚ),
      extruderOk e (addPolygons sp dist h e ps).2
      ∧ List.foldl stepE e (addPolygons sp dist h e ps).2
          = (addPolygons sp dist h e ps).1
      ∧ e ≤ (addPolygons sp dist h e ps).1 := by
  intro ps
  induction ps with
  | nil => intro e; simp [addPolygons, extruderOk]
  | cons p rest ih =>
    intro e
    obtain ⟨ok1, fold1, le1⟩ := polygonCmds_extruderOk sp dist h hepm hd p e
    obtain ⟨ok2, fold2, le2⟩ := ih (polygonCmds sp dist h e p).1
    have hsplit : addPolygons sp dist h e (p :: rest)
        = ((addPolygons sp dist h (polygonCmds sp dist h e p).1 rest).1,
            (polygonCmds sp dist h e p).2
              ++ (addPolygons sp dist h (polygonCmds sp dist h e p).1 rest).2) := by
      simp [addPolygons]
    rw [hsplit]
    refine ⟨?_, ?_, ?_⟩
    · rw [extruderOk_append, fold1]
      exact ⟨ok1, ok2⟩
    · rw [List.foldl_append, fold1]
      exact fold2
    · exact le_trans le1 le2

theorem infillSegments_extruderOk (sp : SlicingParameters)
    (dist : Point → Point → ℚ) (h : ℚ)
    (hepm : 0 ≤ infill_extrusion_per_extruded_mm sp h)
    (hd : ∀ p q, 0 ≤ dist p q) :
    ∀ (segs : List (Point × Point)) (e : ℚ),
      extruderOk e (infillSegments sp dist h e segs).2
      ∧ List.foldl stepE e (infillSegments sp dist h e segs).2
          = (infillSegments sp dist h e segs).1
      ∧ e ≤ (infillSegments sp dist h e segs).1 := by
  intro segs
  induction segs with
  | nil => intro e; simp [infillSegments, extruderOk]
  | cons s rest ih =>
    intro e
    have hstep : e ≤ e + dist s.1 s.2 * infill_extrusion_per_extruded_mm sp h := by
      have := mul_nonneg (hd s.1 s.2) hepm
      linarith
    obtain ⟨ok, fold, le⟩ :=
      ih (e + dist s.1 s.2 * infill_extrusion_per_extruded_mm sp h)
    have hsplit : infillSegments sp dist h e (s :: rest)
        = ((infillSegments sp dist h
              (e + dist s.1 s.2 * infill_extrusion_per_extruded_mm sp h) rest).1,
            (infillSegmentCmds sp dist h e s).2
              ++ (infillSegments sp dist h
                  (e + dist s.1 s.2 * infill_extrusion_per_extruded_mm sp h)
                  rest).2) := by
      simp [infillSegments, infillSegmentCmds]
    have hseg : extruderOk e (infillSegmentCmds sp dist h e s).2 := by
      simp only [infillSegmentCmds, extruderOk, Cmd.isLayerChange, stepE]
      simp
      exact mul_nonneg (hd s.1 s.2) hepm
    have hfold : List.foldl stepE e (infillSegmentCmds sp dist h e s).2
        = e + dist s.1 s.2 * infill_extrusion_per_extruded_mm sp h := by
      simp [infillSegmentCmds, stepE]
    rw [hsplit]
    refine ⟨?_, ?_, ?_⟩
    · rw [extruderOk_append, hfold]
      exact ⟨hseg, ok⟩
    · rw [List.foldl_append, hfold]
      exact fold
    · exact le_trans hstep le

theorem infillStep_extruderOk (sp : SlicingParameters)
    (dist : Point → Point → ℚ) (clip : ClipOracle) (i : ℕ)
    (inner : List (List Point)) (bounds : ℚ × ℚ × ℚ × ℚ) (h : ℚ)
    (hepm : 0 ≤ infill_extrusion_per_extruded_mm sp h)
    (hd : ∀ p q, 0 ≤ dist p q) (e : ℚ) :
    extruderOk e (infillStep sp dist clip i inner bounds h e).2
    ∧ List.foldl stepE e (infillStep sp dist clip i inner bounds h e).2
        = (infillStep sp dist clip i inner bounds h e).1
    ∧ e ≤ (infillStep sp dist clip i inner bounds h e).1 := by
  unfold infillStep
  by_cases hgate : 0 < sp.infill_density ∧ i % sp.infill_layer_freq = 0
  · rw [if_pos hgate]
    by_cases hlen : 0 < inner.length
    · rw [if_pos hlen]
      dsimp only
      by_cases hemp : (generate_straight_line_infill clip inner
          (sp.extrusion_width / sp.infill_density)
          ((infill_angles sp).getD (i % (infill_angles sp).length) 0)
          bounds).isEmpty
      · rw [if_pos hemp]
        simp [extruderOk]
      · rw [if_neg hemp]
        obtain ⟨ok, fold, le⟩ := infillSegments_extruderOk sp dist h hepm hd
          (generate_straight_line_infill clip inner
            (sp.extrusion_width / sp.infill_density)
            ((infill_angles sp).getD (i % (infill_angles sp).length) 0)
            bounds) e
        refine ⟨?_, ?_, ?_⟩
        · simpa [extruderOk, stepE, Cmd.isLayerChange] using ok
        · simpa [stepE] using fold
        · simpa using le
    · rw [if_neg hlen]
      simp [extruderOk]
  · rw [if_neg hgate]
    simp [extruderOk]

theorem runOp_extruderOk (sp : SlicingParameters)
    (dist : Point → Point → ℚ) (clip : ClipOracle) (op : Op) (e : ℚ)
    (hd : ∀ p q, 0 ≤ dist p q) (hnoz : 0 < sp.nozzle_diameter)
    (hmult : 0 ≤ sp.extrusion_multiplier)
    (hh : 0 ≤ op.height ∧ op.height ≤ sp.extrusion_width) :
    extruderOk e (runOp sp dist clip e op).2
    ∧ List.foldl stepE e (runOp sp dist clip e op).2
        = (runOp sp dist clip e op).1 := by
  match op with
  | .layer z h =>
    simp [runOp, layerChange, extruderOk, stepE, Cmd.isLayerChange]
  | .polys h ps =>
    obtain ⟨h0, hW⟩ := hh
    obtain ⟨ok, fold, _⟩ := addPolygons_extruderOk sp dist h
      (extrusion_per_mm_nonneg sp h h0 hW hnoz) hd ps e
    exact ⟨ok, fold⟩
  | .infillOp i inner bounds h =>
    obtain ⟨h0, hW⟩ := hh
    obtain ⟨ok, fold, _⟩ := infillStep_extruderOk sp dist clip i inner bounds h
      (infill_extrusion_per_mm_nonneg sp h h0 hW hnoz hmult) hd e
    exact ⟨ok, fold⟩

/-- C5 (amended): across any sequence of writer-level operations, with a
non-negative distance function, positive nozzle diameter, non-negative
extrusion multiplier, and every layer height between 0 and the extrusion
width (so the track area is non-negative), the cumulative extruder
position is exactly 0 immediately after every layer-change command, is
non-decreasing after every other emitted command (extruding moves
included), and is reset only by layer-change commands; moreover the
per-command extruder positions reconstructed by `stepE` are consistent
with the state threaded by the writer. -/
theorem c5_extruder_state (sp : SlicingParameters)
    (dist : Point → Point → ℚ) (clip : ClipOracle) (ops : List Op) (e : ℚ)
    (hd : ∀ p q, 0 ≤ dist p q) (hnoz : 0 < sp.nozzle_diameter)
    (hmult : 0 ≤ sp.extrusion_multiplier)
    (hops : ∀ op ∈ ops, 0 ≤ op.height ∧ op.height ≤ sp.extrusion_width) :
    extruderOk e (runOps sp dist clip e ops).2
    ∧ List.foldl stepE e (runOps sp dist clip e ops).2
        = (runOps sp dist clip e ops).1 := by
  induction ops generalizing e with
  | nil => simp [runOps, extruderOk]
  | cons op rest ih =>
    obtain ⟨ok1, fold1⟩ := runOp_extruderOk sp dist clip op e hd hnoz hmult
      (hops op (List.mem_cons_self op rest))
    obtain ⟨ok2, fold2⟩ := ih (runOp sp dist clip e op).1
      (fun o ho => hops o (List.mem_cons_of_mem _ ho))
    have hsplit : runOps sp dist clip e (op :: rest)
        = ((runOps sp dist clip (runOp sp dist clip e op).1 rest).1,
            (runOp sp dist clip e op).2
              ++ (runOps sp dist clip (runOp sp dist clip e op).1 rest).2) := by
      simp [runOps]
    rw [hsplit]
    constructor
    · rw [extruderOk_append, fold1]
      exact ⟨ok1, ok2⟩
    · rw [List.foldl_append, fold1]
      exact fold2

/-- Witness for C5 at a concrete two-layer run with a perimeter batch
and an infill pass. -/
theorem c5_extruder_state_witness :
    extruderOk 0 (runOps spTest distEx clipNone 0
        [ Op.layer (3/10) (3/10)
        , Op.polys (3/10) [[((0:ℚ), (0:ℚ)), ((3:ℚ), (4:ℚ))]]
        , Op.infillOp 0 [[((0:ℚ), (0:ℚ)), ((3:ℚ), (4:ℚ)), ((0:ℚ), (4:ℚ))]]
            (0, 0, 10, 10) (3/10)
        , Op.layer (1/2) (1/5) ]).2
    ∧ List.foldl stepE 0 (runOps spTest distEx clipNone 0
        [ Op.layer (3/10) (3/10)
        , Op.polys (3/10) [[((0:ℚ), (0:ℚ)), ((3:ℚ), (4:ℚ))]]
        , Op.infillOp 0 [[((0:ℚ), (0:ℚ)), ((3:ℚ), (4:ℚ)), ((0:ℚ), (4:ℚ))]]
            (0, 0, 10, 10) (3/10)
        , Op.layer (1/2) (1/5) ]).2
        = (runOps spTest distEx clipNone 0
            [ Op.layer (3/10) (3/10)
            , Op.polys (3/10) [[((0:ℚ), (0:ℚ)), ((3:ℚ), (4:ℚ))]]
            , Op.infillOp 0 [[((0:ℚ), (0:ℚ)), ((3:ℚ), (4:ℚ)), ((0:ℚ), (4:ℚ))]]
                (0, 0, 10, 10) (3/10)
            , Op.layer (1/2) (1/5) ]).1 :=
  c5_extruder_state spTest distEx clipNone _ 0
    (by
      intro p q
      unfold distEx
      split <;> norm_num)
    (by norm_num [spTest]) (by norm_num [spTest])
    (by
      intro op hop
      fin_cases hop <;> norm_num [Op.height, spTest])

/-- Concrete slicing parameters, all non-negative, whose extrusion width
(0) is smaller than the layer height in use (1), making the track area
negative. -/
def spZeroW : SlicingParameters :=
  { first_layer_height := 1
    layer_height := 1
    num_perimeters := 1
    volume_rate_mm3_per_s := 10
    extrusion_width := 0
    nozzle_diameter := 1
    travel_speed := 250
    perimeter_overlap := 0
    brim_width := 0
    extrusion_multiplier := 1
    infill_density := 0
    infill_angle := 0
    infill_overlap := 0
    infill_layer_freq := 1 }

/-- C5 counterexample: with every slicing parameter non-negative but the
layer height (1) exceeding the extrusion width (0), the track area — and
with it the extrusion per mm — is negative, so the cumulative extruder
position strictly decreases across an extruding move: non-negativity of
the parameters alone does not give monotonicity. -/
theorem c5_counterexample :
    0 ≤ spZeroW.first_layer_height ∧ 0 ≤ spZeroW.layer_height
    ∧ 0 ≤ spZeroW.volume_rate_mm3_per_s ∧ 0 ≤ spZeroW.extrusion_width
    ∧ 0 ≤ spZeroW.nozzle_diameter ∧ 0 ≤ spZeroW.travel_speed
    ∧ 0 ≤ spZeroW.perimeter_overlap ∧ 0 ≤ spZeroW.brim_width
    ∧ 0 ≤ spZeroW.extrusion_multiplier ∧ 0 ≤ spZeroW.infill_density
    ∧ 0 ≤ spZeroW.infill_angle ∧ 0 ≤ spZeroW.infill_overlap
    ∧ ¬ extruderOk 0 (runOps spZeroW distEx clipNone 0
        [ Op.layer 1 1
        , Op.polys 1 [[((0:ℚ), (0:ℚ)), ((3:ℚ), (4:ℚ))]] ]).2 := by
  have hne : (((0:ℚ), (0:ℚ)) : Point) ≠ ((3:ℚ), (4:ℚ)) := by decide
  have hne' : (((3:ℚ), (4:ℚ)) : Point) ≠ ((0:ℚ), (0:ℚ)) := by decide
  have hne0 : (0 : Point) ≠ ((3:ℚ), (4:ℚ)) := by decide
  have hne0' : (((3:ℚ), (4:ℚ)) : Point) ≠ (0 : Point) := by decide
  refine ⟨by norm_num [spZeroW], by norm_num [spZeroW], by norm_num [spZeroW],
    by norm_num [spZeroW], by norm_num [spZeroW], by norm_num [spZeroW],
    by norm_num [spZeroW], by norm_num [spZeroW], by norm_num [spZeroW],
    by norm_num [spZeroW], by norm_num [spZeroW], by norm_num [spZeroW], ?_⟩
  norm_num [runOps, runOp, layerChange, addPolygons, polygonCmds, extrudeLoop,
    extruderOk, stepE, Cmd.isLayerChange, distEx, hne, hne', hne0, hne0',
    extrusion_per_extruded_mm, track_area_mm2, nozzle_area, spZeroW, np_pi]

/-- C6 (the code evaluated at the failing input): a zero-size polygon
does not yield "no loop, continue silently" — `process_polygon` raises
`IndexError` at `vertices.append(vertices[0])` (line 266), and the
exception aborts the whole contour extraction, including every later
polygon (here a valid triangle). -/
theorem c6_zero_size_polygon_aborts :
    process_polygon ([] : List Point) = none
    ∧ process_contour
        [[], [((0:ℚ), (0:ℚ)), ((1:ℚ), (0:ℚ)), ((0:ℚ), (1:ℚ))]] = none
    ∧ process_contour [[((0:ℚ), (0:ℚ)), ((1:ℚ), (0:ℚ)), ((0:ℚ), (1:ℚ))]]
        = some [[((0:ℚ), (0:ℚ)), ((1:ℚ), (0:ℚ)), ((0:ℚ), (1:ℚ)),
            ((0:ℚ), (0:ℚ))]] := by
  refine ⟨rfl, rfl, rfl⟩

/-- A concrete routing oracle reporting no feasible solution. -/
def solveNone : SolveOracle := fun _ => none

/-- A concrete routing oracle returning the trivial single-node tour. -/
def solveTriv : SolveOracle := fun _ => some [0]

/-- A concrete routing oracle swapping two nodes. -/
def solveSwap : SolveOracle := fun _ => some [1, 0]

/-- C7: when the routing solver reports no feasible solution, the
travel-order optimizer returns the loops in their original input order,
surfaces the condition only as the logged "No solution found!" message,
and returns normally (the job continues). -/
theorem c7_solver_infeasible_fallback (solve : SolveOracle)
    (polys : List (List Point)) (hne : polys ≠ [])
    (hvalid : ∀ p ∈ polys, p ≠ [])
    (hnosol : solve (squared_distance_matrix polys) = none) :
    reduce_travel_moves solve polys
      = some ⟨polys, true, ["No solution found!"]⟩ := by
  have hany : (polys.any fun p => p.isEmpty) = false := by
    rw [List.any_eq_false]
    intro p hp
    simpa [List.isEmpty_iff] using hvalid p hp
  have hlen : ¬ polys.length = 0 := by
    simpa [List.length_eq_zero] using hne
  simp [reduce_travel_moves, hany, hlen, hnosol]

/-- Witness for C7 at a single triangle loop. -/
theorem c7_solver_infeasible_fallback_witness :
    reduce_travel_moves solveNone
        [[((0:ℚ), (0:ℚ)), ((1:ℚ), (0:ℚ)), ((0:ℚ), (1:ℚ)), ((0:ℚ), (0:ℚ))]]
      = some ⟨[[((0:ℚ), (0:ℚ)), ((1:ℚ), (0:ℚ)), ((0:ℚ), (1:ℚ)),
          ((0:ℚ), (0:ℚ))]], true, ["No solution found!"]⟩ :=
  c7_solver_infeasible_fallback solveNone _ (by simp)
    (by intro p hp; simp at hp; subst hp; simp) rfl

/-- C8 counterexample: for a single loop the routing solver IS invoked —
`reduce_travel_moves` has no N = 1 early return (the only early return,
line 288, is for N = 0), so the claim "without invoking the routing
solver" fails at this one-loop input. -/
theorem c8_counterexample :
    (reduce_travel_moves solveTriv
        [[((0:ℚ), (0:ℚ)), ((1:ℚ), (0:ℚ)), ((0:ℚ), (1:ℚ)),
          ((0:ℚ), (0:ℚ))]]).map RoutingOutcome.solverInvoked
      = some true := by
  rfl

/-- C8 (amended): zero loops yield the empty ordering without invoking
the routing solver; exactly one loop is returned unchanged — whether the
solver returns the trivial tour `[0]` or reports no solution — but the
routing solver is invoked (the N = 1 case is not special-cased). -/
theorem c8_zero_and_one_loop (solve : SolveOracle) (l : List Point)
    (hl : l ≠ [])
    (hsol : solve (squared_distance_matrix [l]) = some [0]
        ∨ solve (squared_distance_matrix [l]) = none) :
    reduce_travel_moves solve [] = some ⟨[], false, []⟩
    ∧ (reduce_travel_moves solve [l]).map RoutingOutcome.polygons = some [l]
    ∧ (reduce_travel_moves solve [l]).map RoutingOutcome.solverInvoked
        = some true := by
  have hempty : l.isEmpty = false := by simpa [List.isEmpty_iff] using hl
  refine ⟨by simp [reduce_travel_moves], ?_, ?_⟩ <;>
    rcases hsol with hsol | hsol <;>
    simp [reduce_travel_moves, hempty, hsol]

/-- Witness for C8 at a concrete triangle loop under both solver
outcomes. -/
theorem c8_zero_and_one_loop_witness :
    (reduce_travel_moves solveNone [] = some ⟨[], false, []⟩
      ∧ (reduce_travel_moves solveNone
          [[((0:ℚ), (0:ℚ)), ((1:ℚ), (0:ℚ)), ((0:ℚ), (1:ℚ))]]).map
            RoutingOutcome.polygons
          = some [[((0:ℚ), (0:ℚ)), ((1:ℚ), (0:ℚ)), ((0:ℚ), (1:ℚ))]]
      ∧ (reduce_travel_moves solveNone
          [[((0:ℚ), (0:ℚ)), ((1:ℚ), (0:ℚ)), ((0:ℚ), (1:ℚ))]]).map
            RoutingOutcome.solverInvoked = some true) :=
  c8_zero_and_one_loop solveNone
    [((0:ℚ), (0:ℚ)), ((1:ℚ), (0:ℚ)), ((0:ℚ), (1:ℚ))] (by simp)
    (Or.inr rfl)

/-- C9: infill segments and commands are produced only when the density
is positive and the layer index is a multiple of the configured
frequency; zero density always yields no infill; and a region with no
polygon of at least 3 vertices yields zero segments and no emitted
commands. -/
theorem c9_infill_gating (sp : SlicingParameters)
    (dist : Point → Point → ℚ) (clip : ClipOracle) (i : ℕ)
    (inner : List (List Point)) (bounds : ℚ × ℚ × ℚ × ℚ) (h e : ℚ)
    (_hfreq : 0 < sp.infill_layer_freq) :
    (sp.infill_density = 0 →
      infillStep sp dist clip i inner bounds h e = (e, []))
    ∧ (¬ (0 < sp.infill_density ∧ i % sp.infill_layer_freq = 0) →
        infillStep sp dist clip i inner bounds h e = (e, []))
    ∧ (inner.filter (fun p => 3 ≤ p.length) = [] →
        generate_straight_line_infill clip inner
            (sp.extrusion_width / sp.infill_density)
            ((infill_angles sp).getD (i % (infill_angles sp).length) 0)
            bounds = []
        ∧ infillStep sp dist clip i inner bounds h e = (e, [])) := by
  refine ⟨?_, ?_, ?_⟩
  · intro hzero
    have : ¬ (0 < sp.infill_density ∧ i % sp.infill_layer_freq = 0) := by
      rw [hzero]; simp
    simp [infillStep, this]
  · intro hgate
    simp [infillStep, hgate]
  · intro hfilter
    have hgen : generate_straight_line_infill clip inner
        (sp.extrusion_width / sp.infill_density)
        ((infill_angles sp).getD (i % (infill_angles sp).length) 0)
        bounds = [] := by
      simp [generate_straight_line_infill, hfilter]
    have hgen' : generate_straight_line_infill clip inner
        (sp.extrusion_width / sp.infill_density)
        (((infill_angles sp)[i % (infill_angles sp).length]?).getD 0)
        bounds = [] := by
      simpa [List.getD] using hgen
    refine ⟨hgen, ?_⟩
    by_cases hgate : 0 < sp.infill_density ∧ i % sp.infill_layer_freq = 0
    · by_cases hlen : 0 < inner.length
      · simp [infillStep, hgate, hlen, hgen, hgen']
      · simp [infillStep, hgate, hlen]
    · simp [infillStep, hgate]

/-- Witness for C9: zero density, a degenerate region (one zero-vertex
polygon), layer 0, frequency 1. -/
theorem c9_infill_gating_witness :
    (spZeroW.infill_density = 0 →
      infillStep spZeroW distEx clipNone 0 [[]] (0, 0, 10, 10) 1 0 = (0, []))
    ∧ (¬ (0 < spZeroW.infill_density ∧ 0 % spZeroW.infill_layer_freq = 0) →
        infillStep spZeroW distEx clipNone 0 [[]] (0, 0, 10, 10) 1 0 = (0, []))
    ∧ (([[]] : List (List Point)).filter (fun p => 3 ≤ p.length) = [] →
        generate_straight_line_infill clipNone [[]]
            (spZeroW.extrusion_width / spZeroW.infill_density)
            ((infill_angles spZeroW).getD
              (0 % (infill_angles spZeroW).length) 0) (0, 0, 10, 10) = []
        ∧ infillStep spZeroW distEx clipNone 0 [[]] (0, 0, 10, 10) 1 0
            = (0, [])) :=
  c9_infill_gating spZeroW distEx clipNone 0 [[]] (0, 0, 10, 10) 1 0
    (by norm_num [spZeroW])

theorem map_getD_range (l : List (List Point)) :
    (List.range l.length).map (fun i => l.getD i []) = l := by
  induction l with
  | nil => simp
  | cons a t ih =>
    have hcomp : ((fun i => (a :: t).getD i []) ∘ Nat.succ)
        = (fun i => t.getD i []) := by
      funext i
      simp [List.getD_cons_succ]
    rw [List.length_cons, List.range_succ_eq_map, List.map_cons,
      List.map_map, hcomp, ih, List.getD_cons_zero]

/-- C10: whenever the routing solver returns a solution (a visiting
order that is a permutation of the node indices, the solver's contract),
the travel-order optimizer's output is a permutation of the input loop
list — the same loops with unchanged vertex sequences, none dropped or
duplicated. -/
theorem c10_output_is_permutation (solve : SolveOracle)
    (polys : List (List Point)) (perm : List ℕ) (hne : polys ≠ [])
    (hvalid : ∀ p ∈ polys, p ≠ [])
    (hsol : solve (squared_distance_matrix polys) = some perm)
    (hperm : perm.Perm (List.range polys.length)) :
    reduce_travel_moves solve polys
      = some ⟨perm.map (fun i => polys.getD i []), true, []⟩
    ∧ (perm.map (fun i => polys.getD i [])).Perm polys := by
  have hany : (polys.any fun p => p.isEmpty) = false := by
    rw [List.any_eq_false]
    intro p hp
    simpa [List.isEmpty_iff] using hvalid p hp
  have hlen : ¬ polys.length = 0 := by
    simpa [List.length_eq_zero] using hne
  have hall : perm.all (fun i => decide (i < polys.length)) = true := by
    rw [List.all_eq_true]
    intro i hi
    have : i ∈ List.range polys.length := hperm.mem_iff.mp hi
    simpa using List.mem_range.mp this
  constructor
  · simp [reduce_travel_moves, hany, hlen, hsol, hall]
  · have := hperm.map (fun i => polys.getD i [])
    rwa [map_getD_range polys] at this

/-- Witness for C10: two loops reordered by the swap permutation. -/
theorem c10_output_is_permutation_witness :
    reduce_travel_moves solveSwap
        [[((0:ℚ), (0:ℚ)), ((1:ℚ), (0:ℚ)), ((0:ℚ), (0:ℚ))],
          [((2:ℚ), (0:ℚ)), ((3:ℚ), (0:ℚ)), ((2:ℚ), (0:ℚ))]]
      = some ⟨[[((2:ℚ), (0:ℚ)), ((3:ℚ), (0:ℚ)), ((2:ℚ), (0:ℚ))],
          [((0:ℚ), (0:ℚ)), ((1:ℚ), (0:ℚ)), ((0:ℚ), (0:ℚ))]], true, []⟩
    ∧ ([[((2:ℚ), (0:ℚ)), ((3:ℚ), (0:ℚ)), ((2:ℚ), (0:ℚ))],
        [((0:ℚ), (0:ℚ)), ((1:ℚ), (0:ℚ)), ((0:ℚ), (0:ℚ))]]).Perm
        [[((0:ℚ), (0:ℚ)), ((1:ℚ), (0:ℚ)), ((0:ℚ), (0:ℚ))],
          [((2:ℚ), (0:ℚ)), ((3:ℚ), (0:ℚ)), ((2:ℚ), (0:ℚ))]] := by
  have h := c10_output_is_permutation solveSwap
    [[((0:ℚ), (0:ℚ)), ((1:ℚ), (0:ℚ)), ((0:ℚ), (0:ℚ))],
      [((2:ℚ), (0:ℚ)), ((3:ℚ), (0:ℚ)), ((2:ℚ), (0:ℚ))]] [1, 0]
    (by simp)
    (by
      intro p hp
      simp only [List.mem_cons, List.not_mem_nil, or_false] at hp
      rcases hp with h | h <;> subst h <;> simp)
    rfl (by decide)
  simpa using h

end GladiusToGcode
